import Mathlib

/-!
Verification of the TrueFit Meds backend against its design spec.

The development shallowly embeds the data model (`models.py`, `schemas.py`),
the adherence and statistics aggregation of `routers/summary.py`, the
code-fence normalization and merge step of the same file, and the log upsert
of `routers/logs.py`.  Python floats are modelled as rationals; Python's
`round(x, 1)` (round-half-to-even) is `round1`; Python dicts keyed by ids or
names are modelled as association lists in insertion order.
-/

namespace TrueFit

/-- Python `round` to an integer: round half to even (banker's rounding). -/
def roundHalfEven (q : ℚ) : ℤ :=
  let f : ℤ := ⌊q⌋
  let r : ℚ := q - f
  if r < 1/2 then f
  else if r > 1/2 then f + 1
  else if f % 2 = 0 then f else f + 1

/-- Python `round(x, 1)`: round to one decimal place. -/
def round1 (q : ℚ) : ℚ := (roundHalfEven (q * 10) : ℚ) / 10

/-! ## Data model (`models.py`, `schemas.py`) -/

/-- A row of the `medications` table (fields used by the summary pipeline). -/
structure Medication where
  id : Nat
  patient_id : Nat
  name : String
  active : Bool
  deriving DecidableEq, Repr

/-- A `medications_taken` entry: `{medication_id, taken, time_taken}`. -/
structure MedTakenEntry where
  medication_id : Nat
  taken : Bool
  time_taken : Option String
  deriving DecidableEq, Repr

/-- A `symptoms` entry: `{name, severity}`. -/
structure Symptom where
  name : String
  severity : ℚ
  deriving DecidableEq, Repr

/-- A nested side-effect entry: `{name, severity}`. -/
structure SideEffect where
  name : String
  severity : ℚ
  deriving DecidableEq, Repr

/-- A `medication_side_effects` entry. -/
structure MedSideEffect where
  medication_id : Nat
  medication_name : String
  side_effects : List SideEffect
  deriving DecidableEq, Repr

/-- An `activities` entry: `{type, duration_minutes}`. -/
structure Activity where
  type : String
  duration_minutes : Option Nat
  deriving DecidableEq, Repr

/-- The nine data fields written by the log upsert (`logs.py`, `fields` dict).
`lifestyle` is kept as the key/value pairs of the stored JSON object, in
insertion order, mirroring Python's `dict.items()`. -/
structure LogFields where
  medications_taken : Option (List MedTakenEntry)
  symptoms : Option (List Symptom)
  medication_side_effects : Option (List MedSideEffect)
  sleep_hours : Option ℚ
  mood_score : Option ℚ
  water_intake_oz : Option ℚ
  activities : Option (List Activity)
  lifestyle : Option (List (String × Bool))
  notes : Option String
  deriving DecidableEq, Repr

/-- A row of the `daily_logs` table.  Dates are modelled as day numbers. -/
structure DailyLog where
  patient_id : Nat
  logged_by : Nat
  date : Nat
  fields : LogFields
  deriving DecidableEq, Repr

/-- A row of the `patients` table (fields used by the summary endpoint). -/
structure Patient where
  id : Nat
  caregiver_id : Nat
  name : String
  diagnosis : String
  deriving DecidableEq, Repr

/-- An association-list lookup returning the first binding of a key,
the model of Python dict access (keys are unique in every dict we build). -/
def alookup {κ α : Type} [DecidableEq κ] (k : κ) : List (κ × α) → Option α
  | [] => none
  | (k', v) :: rest => if k' = k then some v else alookup k rest

/-! ## Adherence (`summary.py`, `_calculate_adherence`) -/

/-- One bucket of the `med_stats` dict: `{"name", "taken", "total"}`. -/
structure MedStat where
  name : String
  taken : Nat
  total : Nat
  deriving DecidableEq, Repr

/-- The `med_stats[mid]["total"] += 1` / `["taken"] += 1` step: bump the
bucket of key `mid`, leaving the dict unchanged when the key is absent
(the `if mid in med_stats` guard). -/
def bump (mid : Nat) (tk : Bool) : List (Nat × MedStat) → List (Nat × MedStat)
  | [] => []
  | (k, s) :: rest =>
    if k = mid then
      (k, ⟨s.name, s.taken + (if tk then 1 else 0), s.total + 1⟩) :: rest
    else
      (k, s) :: bump mid tk rest

/-- Process one `medications_taken` entry against `med_stats`. -/
def processEntry (stats : List (Nat × MedStat)) (e : MedTakenEntry) :
    List (Nat × MedStat) :=
  bump e.medication_id e.taken stats

/-- The `medications_taken` list of a log; `None` and `[]` are both skipped
by the loop (`if not log.medications_taken: continue`). -/
def logEntries (log : DailyLog) : List MedTakenEntry :=
  log.fields.medications_taken.getD []

/-- Process one log's `medications_taken` entries against `med_stats`. -/
def processLog (stats : List (Nat × MedStat)) (log : DailyLog) :
    List (Nat × MedStat) :=
  (logEntries log).foldl processEntry stats

/-- One value of the returned adherence dict. -/
structure AdherenceRec where
  name : String
  percentage : ℚ
  days_taken : Nat
  days_logged : Nat
  deriving DecidableEq, Repr

/-- The final comprehension of `_calculate_adherence`: percentage is
`round(taken / total * 100, 1)` guarded to `0` when `total` is zero. -/
def adherenceFinal (s : MedStat) : AdherenceRec :=
  ⟨s.name,
   if s.total = 0 then 0 else round1 ((s.taken : ℚ) / (s.total : ℚ) * 100),
   s.taken, s.total⟩

/-- `_calculate_adherence(logs, medications)` from `summary.py`. -/
def calculate_adherence (logs : List DailyLog) (medications : List Medication) :
    List (Nat × AdherenceRec) :=
  ((logs.foldl processLog
      (medications.map fun m => (m.id, (⟨m.name, 0, 0⟩ : MedStat)))).map
    fun p => (p.1, adherenceFinal p.2))

/-- All `medications_taken` entries across a list of logs, in order. -/
def allTakenEntries (logs : List DailyLog) : List MedTakenEntry :=
  (logs.map logEntries).flatten

/-- Number of `medications_taken` entries across the logs with this
`medication_id` (any `taken` value). -/
def matchCount (mid : Nat) (logs : List DailyLog) : Nat :=
  (allTakenEntries logs).countP (fun e => e.medication_id == mid)

/-- Number of `medications_taken` entries across the logs with this
`medication_id` and `taken = true`. -/
def takenCount (mid : Nat) (logs : List DailyLog) : Nat :=
  (allTakenEntries logs).countP (fun e => e.medication_id == mid && e.taken)

/-- Number of logs containing some entry for this `medication_id` with
`taken = true` — the spec's literal "count of logs" reading of days_taken. -/
def daysTakenByLogs (mid : Nat) (logs : List DailyLog) : Nat :=
  logs.countP (fun l => (logEntries l).any (fun e => e.medication_id == mid && e.taken))

/-- Number of logs containing any entry for this `medication_id` — the
spec's literal "count of logs" reading of days_logged. -/
def daysLoggedByLogs (mid : Nat) (logs : List DailyLog) : Nat :=
  logs.countP (fun l => (logEntries l).any (fun e => e.medication_id == mid))

/-! ## Statistics aggregation (`summary.py`, lines 86–141) -/

/-- `defaultdict(list)` append: `symptom_totals[name].append(severity)`;
a missing key is created at the end of the dict with a one-element list. -/
def dappend (k : String) (v : ℚ) : List (String × List ℚ) → List (String × List ℚ)
  | [] => [(k, [v])]
  | (k', vs) :: rest =>
    if k' = k then (k', vs ++ [v]) :: rest else (k', vs) :: dappend k v rest

/-- `defaultdict(int)` increment: `counts[k] += 1`; a missing key is created
at the end of the dict with count 1. -/
def dinc (k : String) : List (String × Nat) → List (String × Nat)
  | [] => [(k, 1)]
  | (k', n) :: rest =>
    if k' = k then (k', n + 1) :: rest else (k', n) :: dinc k rest

/-- Nested `defaultdict(lambda: defaultdict(int))` increment:
`side_effect_counts[k1][k2] += 1`. -/
def dinc2 (k1 k2 : String) :
    List (String × List (String × Nat)) → List (String × List (String × Nat))
  | [] => [(k1, [(k2, 1)])]
  | (k', m) :: rest =>
    if k' = k1 then (k', dinc k2 m) :: rest else (k', m) :: dinc2 k1 k2 rest

/-- The accumulators of the aggregation loop (`summary.py` lines 87–91). -/
structure StatsAcc where
  sleep_vals : List ℚ
  mood_vals : List ℚ
  water_vals : List ℚ
  symptom_totals : List (String × List ℚ)
  activity_counts : List (String × Nat)
  side_effect_counts : List (String × List (String × Nat))
  lifestyle_totals : List (String × Nat)
  deriving Repr

/-- Initial (empty) accumulators. -/
def emptyStats : StatsAcc := ⟨[], [], [], [], [], [], []⟩

/-- One iteration of the `for log in logs` aggregation loop
(`summary.py` lines 94–115). -/
def processLogStats (acc : StatsAcc) (log : DailyLog) : StatsAcc :=
  { sleep_vals := acc.sleep_vals ++ log.fields.sleep_hours.toList
    mood_vals := acc.mood_vals ++ log.fields.mood_score.toList
    water_vals := acc.water_vals ++ log.fields.water_intake_oz.toList
    symptom_totals :=
      (log.fields.symptoms.getD []).foldl
        (fun st s => dappend s.name s.severity st) acc.symptom_totals
    activity_counts :=
      (log.fields.activities.getD []).foldl
        (fun ac a => dinc a.type ac) acc.activity_counts
    side_effect_counts :=
      (log.fields.medication_side_effects.getD []).foldl
        (fun sc mse =>
          mse.side_effects.foldl
            (fun sc se => dinc2 mse.medication_name se.name sc) sc)
        acc.side_effect_counts
    lifestyle_totals :=
      (log.fields.lifestyle.getD []).foldl
        (fun lt kv => if kv.2 then dinc kv.1 lt else lt) acc.lifestyle_totals }

/-- The aggregation loop over all logs. -/
def statsAcc (logs : List DailyLog) : StatsAcc :=
  logs.foldl processLogStats emptyStats

/-- `round(sum(vals) / len(vals), 1) if vals else None`
(`summary.py` lines 130–132, one per scalar field). -/
def meanRound1 (vals : List ℚ) : Option ℚ :=
  if vals.isEmpty then none else some (round1 (vals.sum / (vals.length : ℚ)))

/-- Average sleep over the window (`avg_sleep`). -/
def avg_sleep (logs : List DailyLog) : Option ℚ :=
  meanRound1 (statsAcc logs).sleep_vals

/-- Average mood over the window (`avg_mood`). -/
def avg_mood (logs : List DailyLog) : Option ℚ :=
  meanRound1 (statsAcc logs).mood_vals

/-- Average water intake over the window (`avg_water`). -/
def avg_water (logs : List DailyLog) : Option ℚ :=
  meanRound1 (statsAcc logs).water_vals

/-- Maximum of a list of rationals; `max(scores)` in Python.  The `[]` case
is unreachable in the pipeline: `symptom_totals` values are built by
`dappend` and are never empty. -/
def listMax : List ℚ → ℚ
  | [] => 0
  | x :: xs => xs.foldl max x

/-- One value of `symptom_averages`. -/
structure SymptomStat where
  average : ℚ
  max : ℚ
  entries : Nat
  deriving DecidableEq, Repr

/-- The `symptom_averages` comprehension (`summary.py` lines 134–141). -/
def symptomAverages (st : List (String × List ℚ)) : List (String × SymptomStat) :=
  st.map fun p =>
    (p.1, ⟨round1 (p.2.sum / (p.2.length : ℚ)), listMax p.2, p.2.length⟩)

/-- All aggregates computed by the summary pipeline from the in-range logs
and the active medications. -/
structure Aggregates where
  adherence : List (Nat × AdherenceRec)
  avg_sleep : Option ℚ
  avg_mood : Option ℚ
  avg_water : Option ℚ
  symptom_averages : List (String × SymptomStat)
  activity_counts : List (String × Nat)
  side_effect_counts : List (String × List (String × Nat))
  lifestyle_totals : List (String × Nat)

/-- The whole aggregation pipeline of `generate_summary`
(`summary.py` lines 84–141) as one function of the log and medication sets. -/
def computeAggregates (logs : List DailyLog) (meds : List Medication) : Aggregates :=
  let acc := statsAcc logs
  { adherence := calculate_adherence logs meds
    avg_sleep := meanRound1 acc.sleep_vals
    avg_mood := meanRound1 acc.mood_vals
    avg_water := meanRound1 acc.water_vals
    symptom_averages := symptomAverages acc.symptom_totals
    activity_counts := acc.activity_counts
    side_effect_counts := acc.side_effect_counts
    lifestyle_totals := acc.lifestyle_totals }

/-! ## Response normalization (`summary.py`, lines 220–226)

Texts are modelled as lists of characters. -/

/-- The newline character. -/
def nlChar : Char := Char.ofNat 10

/-- The backquote character used by markdown code fences. -/
def tickChar : Char := Char.ofNat 96

/-- The opening brace of a JSON object. -/
def lbraceChar : Char := Char.ofNat 123

/-- The closing brace of a JSON object. -/
def rbraceChar : Char := Char.ofNat 125

/-- Whitespace as removed by Python's `str.strip()` (ASCII range). -/
def isWS (c : Char) : Bool :=
  c = Char.ofNat 32 || c = Char.ofNat 9 || c = nlChar ||
  c = Char.ofNat 13 || c = Char.ofNat 11 || c = Char.ofNat 12

/-- Remove trailing whitespace. -/
def dropTrail (cs : List Char) : List Char :=
  (cs.reverse.dropWhile isWS).reverse

/-- Python `str.strip()`: remove leading and trailing whitespace. -/
def pyStrip (cs : List Char) : List Char :=
  dropTrail (cs.dropWhile isWS)

/-- A triple-backquote code-fence marker. -/
def fenceTicks : List Char := [tickChar, tickChar, tickChar]

/-- Python `response_text.startswith("\x60\x60\x60")`. -/
def startsWithFence (cs : List Char) : Bool :=
  decide (cs.take 3 = fenceTicks)

/-- Python `response_text.endswith("\x60\x60\x60")`. -/
def endsWithFence (cs : List Char) : Bool :=
  decide (cs.reverse.take 3 = fenceTicks)

/-- Python `response_text.split("\n", 1)[-1]`: everything after the first
newline; the whole text when it contains no newline. -/
def dropFirstLine (cs : List Char) : List Char :=
  match cs.dropWhile (fun c => !(c = nlChar)) with
  | [] => cs
  | _ :: tail => tail

/-- The fence-stripping normalization (`summary.py` lines 223–226).  Under
the `endswith` guard, `rsplit("\x60\x60\x60", 1)[0]` is the text with its
last three characters removed. -/
def stripFences (cs : List Char) : List Char :=
  if startsWithFence cs then
    let cs2 := dropFirstLine cs
    if endsWithFence cs2 then pyStrip (cs2.take (cs2.length - 3)) else cs2
  else cs

/-- The whole response normalization: `message.content[0].text.strip()`
followed by fence stripping. -/
def normalizeResponse (cs : List Char) : List Char :=
  stripFences (pyStrip cs)

/-- A model response consisting of the text `J` wrapped in triple-backquote
code fences, with an optional language tag on the opening fence and optional
surrounding whitespace. -/
def wrapFence (tag ws1 ws2 J : List Char) : List Char :=
  ws1 ++ fenceTicks ++ tag ++ [nlChar] ++ J ++ [nlChar] ++ fenceTicks ++ ws2

/-! ## JSON values and the summary endpoint (`summary.py`, lines 44–238) -/

/-- A parsed JSON value, as produced by `json.loads`. -/
inductive Json where
  | null : Json
  | bool : Bool → Json
  | num : ℚ → Json
  | str : String → Json
  | arr : List Json → Json
  | obj : List (String × Json) → Json

/-- Python dict assignment `d[k] = v` on a JSON object: replace the first
binding of `k` in place, or append a new binding at the end. -/
def setKey (ms : List (String × Json)) (k : String) (v : Json) :
    List (String × Json) :=
  match ms with
  | [] => [(k, v)]
  | (k', v') :: rest =>
    if k' = k then (k, v) :: rest else (k', v') :: setKey rest k v

/-- The `adherence_data` payload: the adherence dict with its integer keys
stringified (`{str(mid): d for mid, d in adherence.items()}`). -/
def adherenceToJson (ad : List (Nat × AdherenceRec)) : Json :=
  .obj (ad.map fun p =>
    (toString p.1,
     .obj [("name", .str p.2.name),
           ("percentage", .num p.2.percentage),
           ("days_taken", .num p.2.days_taken),
           ("days_logged", .num p.2.days_logged)]))

/-- How the endpoint terminates: an `HTTPException(status, detail)`, an
unhandled Python `TypeError` (item assignment on a non-dict), or a 200
response carrying a JSON body. -/
inductive EndpointError where
  | http : Nat → String → EndpointError
  | typeErr : EndpointError
  deriving DecidableEq, Repr

/-- The state a request runs against: the database tables, the resolved
caregiver, today's date, the configured credential, and the text the
external model returns for this request's single call. -/
structure SummaryEnv where
  db_patients : List Patient
  db_logs : List DailyLog
  db_meds : List Medication
  current_user : Nat
  today : Nat
  api_key : Option String
  modelResponse : List Char

/-- The patient query of `generate_summary`: first patient with this id
owned by the current user. -/
def findPatient (env : SummaryEnv) (pid : Nat) : Option Patient :=
  env.db_patients.find? (fun p => p.id == pid && p.caregiver_id == env.current_user)

/-- Insert a log into a list sorted by ascending date (stable). -/
def insertByDate (l : DailyLog) : List DailyLog → List DailyLog
  | [] => [l]
  | x :: xs => if l.date < x.date then l :: x :: xs else x :: insertByDate l xs

/-- Stable sort by ascending date (`order_by(models.DailyLog.date.asc())`). -/
def sortByDate : List DailyLog → List DailyLog
  | [] => []
  | x :: xs => insertByDate x (sortByDate xs)

/-- The log query of `generate_summary`: logs of the patient dated within
the trailing 30 days, ascending by date. -/
def windowLogs (today pid : Nat) (dblogs : List DailyLog) : List DailyLog :=
  sortByDate (dblogs.filter fun l =>
    l.patient_id == pid && decide (today - 30 ≤ l.date))

/-- The medication query of `generate_summary`: active medications of the
patient. -/
def activeMeds (env : SummaryEnv) (pid : Nat) : List Medication :=
  env.db_meds.filter (fun m => m.patient_id == pid && m.active)

/-- `generate_summary` from `summary.py`, as a function of the request state
and of the JSON parser (`json.loads`, abstracted as a function returning
`none` on a syntax error).  The prompt strings built from the aggregates are
omitted: they only feed the external call, whose reply is `modelResponse`. -/
def generate_summary (parse : List Char → Option Json) (env : SummaryEnv)
    (patient_id : Nat) : Except EndpointError Json :=
  match findPatient env patient_id with
  | none => .error (.http 404 "Patient not found")
  | some _ =>
    let logs := windowLogs env.today patient_id env.db_logs
    if logs.isEmpty then
      .error (.http 404 "No logs found for the last 30 days")
    else
      let ag := computeAggregates logs (activeMeds env patient_id)
      match env.api_key with
      | none => .error (.http 500 "ANTHROPIC_API_KEY not configured")
      | some _ =>
        match parse (normalizeResponse env.modelResponse) with
        | none => .error (.http 500 "Failed to parse AI response as JSON")
        | some (.obj members) =>
          .ok (.obj (setKey members "adherence_data" (adherenceToJson ag.adherence)))
        | some _ => .error .typeErr

/-! ## Log upsert (`logs.py`, `create_or_update_log`) -/

/-- The store transition of `create_or_update_log` after the ownership check
passes: update the nine data fields of the first log row matching
`(patient_id, date)` in place (leaving `logged_by` untouched), or insert a
fresh row. -/
def create_or_update_log (store : List DailyLog) (pid d lb : Nat)
    (f : LogFields) : List DailyLog :=
  match store with
  | [] => [⟨pid, lb, d, f⟩]
  | r :: rest =>
    if r.patient_id = pid ∧ r.date = d then
      { r with fields := f } :: rest
    else
      r :: create_or_update_log rest pid d lb f

/-- Number of stored log rows keyed by `(pid, d)`. -/
def logKeyCount (pid d : Nat) (store : List DailyLog) : Nat :=
  store.countP (fun r => r.patient_id == pid && r.date == d)

/-- The upsert invariant: at most one stored log per `(patient_id, date)`. -/
def UpsertInv (store : List DailyLog) : Prop :=
  ∀ pid d, logKeyCount pid d store ≤ 1

/-- The `existing` query: first stored log row keyed by `(pid, d)`. -/
def findLogRow (pid d : Nat) (store : List DailyLog) : Option DailyLog :=
  store.find? (fun r => r.patient_id == pid && r.date == d)

/-! ## Association-list and adherence lemmas -/

/-- Entries of `es` with this `medication_id` (any `taken` value). -/
def entriesMatch (mid : Nat) (es : List MedTakenEntry) : Nat :=
  es.countP (fun e => e.medication_id == mid)

/-- Entries of `es` with this `medication_id` and `taken = true`. -/
def entriesTaken (mid : Nat) (es : List MedTakenEntry) : Nat :=
  es.countP (fun e => e.medication_id == mid && e.taken)

theorem alookup_bump_self (mid : Nat) (tk : Bool) (stats : List (Nat × MedStat)) :
    alookup mid (bump mid tk stats) =
      (alookup mid stats).map fun s =>
        ⟨s.name, s.taken + (if tk then 1 else 0), s.total + 1⟩ := by
  induction stats with
  | nil => rfl
  | cons p rest ih =>
    obtain ⟨k, s⟩ := p
    by_cases hk : k = mid
    · subst hk
      simp [bump, alookup]
    · simp [bump, alookup, hk, ih]

theorem alookup_bump_ne (mid' mid : Nat) (tk : Bool)
    (stats : List (Nat × MedStat)) (h : mid' ≠ mid) :
    alookup mid (bump mid' tk stats) = alookup mid stats := by
  induction stats with
  | nil => rfl
  | cons p rest ih =>
    obtain ⟨k, s⟩ := p
    by_cases hk : k = mid'
    · subst hk
      simp [bump, alookup, h, Ne.symm h]
    · simp [bump, alookup, hk, ih]

theorem keysOf_bump (mid : Nat) (tk : Bool) (stats : List (Nat × MedStat)) :
    (bump mid tk stats).map Prod.fst = stats.map Prod.fst := by
  induction stats with
  | nil => rfl
  | cons p rest ih =>
    obtain ⟨k, s⟩ := p
    by_cases hk : k = mid <;> simp [bump, hk, ih]

theorem bump_not_mem (mid : Nat) (tk : Bool) (stats : List (Nat × MedStat))
    (h : mid ∉ stats.map Prod.fst) : bump mid tk stats = stats := by
  induction stats with
  | nil => rfl
  | cons p rest ih =>
    obtain ⟨k, s⟩ := p
    simp only [List.map_cons, List.mem_cons] at h
    push_neg at h
    simp [bump, Ne.symm h.1, ih h.2]

theorem alookup_map_value {κ α β : Type} [DecidableEq κ] (k : κ) (g : α → β)
    (l : List (κ × α)) :
    alookup k (l.map fun p => (p.1, g p.2)) = (alookup k l).map g := by
  induction l with
  | nil => rfl
  | cons p rest ih =>
    obtain ⟨k', v⟩ := p
    by_cases hk : k' = k <;> simp [alookup, hk, ih]

theorem alookup_isSome_iff {κ α : Type} [DecidableEq κ] (k : κ)
    (l : List (κ × α)) :
    (alookup k l).isSome = true ↔ k ∈ l.map Prod.fst := by
  induction l with
  | nil => simp [alookup]
  | cons p rest ih =>
    obtain ⟨k', v⟩ := p
    by_cases hk : k' = k
    · subst hk
      simp [alookup]
    · simp [alookup, hk, ih, Ne.symm hk]

theorem alookup_foldl_processEntry (es : List MedTakenEntry)
    (stats : List (Nat × MedStat)) (mid : Nat) :
    alookup mid (es.foldl processEntry stats) =
      (alookup mid stats).map fun s =>
        ⟨s.name, s.taken + entriesTaken mid es, s.total + entriesMatch mid es⟩ := by
  induction es generalizing stats with
  | nil =>
    cases h : alookup mid stats <;>
      simp [entriesTaken, entriesMatch, h]
  | cons e es ih =>
    simp only [List.foldl_cons, ih]
    by_cases hm : e.medication_id = mid
    · rw [show processEntry stats e = bump mid e.taken stats by
        simp [processEntry, hm]]
      rw [alookup_bump_self]
      have hMatch : entriesMatch mid (e :: es) = entriesMatch mid es + 1 := by
        simp [entriesMatch, List.countP_cons, hm]
      have hTaken : entriesTaken mid (e :: es) =
          entriesTaken mid es + (if e.taken then 1 else 0) := by
        simp [entriesTaken, List.countP_cons, hm]
      rw [hMatch, hTaken]
      cases h : alookup mid stats with
      | none => simp
      | some s =>
        simp only [Option.map_some', Option.some.injEq, MedStat.mk.injEq]
        refine ⟨trivial, ?_, by omega⟩
        cases e.taken
        all_goals simp
        all_goals omega
    · rw [show processEntry stats e = bump e.medication_id e.taken stats from rfl]
      rw [alookup_bump_ne _ _ _ _ hm]
      have h1 : entriesTaken mid (e :: es) = entriesTaken mid es := by
        simp [entriesTaken, List.countP_cons, hm]
      have h2 : entriesMatch mid (e :: es) = entriesMatch mid es := by
        simp [entriesMatch, List.countP_cons, hm]
      rw [h1, h2]

theorem matchCount_cons (mid : Nat) (l : DailyLog) (logs : List DailyLog) :
    matchCount mid (l :: logs) =
      entriesMatch mid (logEntries l) + matchCount mid logs := by
  simp [matchCount, allTakenEntries, entriesMatch, List.countP_append]

theorem takenCount_cons (mid : Nat) (l : DailyLog) (logs : List DailyLog) :
    takenCount mid (l :: logs) =
      entriesTaken mid (logEntries l) + takenCount mid logs := by
  simp [takenCount, allTakenEntries, entriesTaken, List.countP_append]

theorem alookup_foldl_processLog (logs : List DailyLog)
    (stats : List (Nat × MedStat)) (mid : Nat) :
    alookup mid (logs.foldl processLog stats) =
      (alookup mid stats).map fun s =>
        ⟨s.name, s.taken + takenCount mid logs, s.total + matchCount mid logs⟩ := by
  induction logs generalizing stats with
  | nil =>
    cases h : alookup mid stats <;>
      simp [takenCount, matchCount, allTakenEntries, h]
  | cons l logs ih =>
    simp only [List.foldl_cons, ih]
    rw [show processLog stats l = (logEntries l).foldl processEntry stats from rfl]
    rw [alookup_foldl_processEntry]
    cases h : alookup mid stats with
    | none => simp
    | some s =>
      simp only [Option.map_some', Option.some.injEq, MedStat.mk.injEq]
      exact ⟨trivial, by rw [takenCount_cons]; omega, by rw [matchCount_cons]; omega⟩

theorem alookup_init (meds : List Medication) (m : Medication)
    (hm : m ∈ meds) (hnd : (meds.map Medication.id).Nodup) :
    alookup m.id (meds.map fun m' => (m'.id, (⟨m'.name, 0, 0⟩ : MedStat))) =
      some ⟨m.name, 0, 0⟩ := by
  induction meds with
  | nil => cases hm
  | cons m' rest ih =>
    simp only [List.map_cons, List.nodup_cons] at hnd
    rcases List.mem_cons.mp hm with h | h
    · subst h
      simp [alookup]
    · by_cases hk : m'.id = m.id
      · exfalso
        exact hnd.1 (hk ▸ List.mem_map.mpr ⟨m, h, rfl⟩)
      · simp only [List.map_cons, alookup, hk, if_false]
        exact ih h hnd.2

/-- Pointwise characterization of `_calculate_adherence`: the bucket of an
active medication holds the entry counts over all in-range logs. -/
theorem calculate_adherence_lookup (logs : List DailyLog)
    (meds : List Medication) (m : Medication) (hm : m ∈ meds)
    (hnd : (meds.map Medication.id).Nodup) :
    alookup m.id (calculate_adherence logs meds) =
      some ⟨m.name,
            if matchCount m.id logs = 0 then 0
            else round1 ((takenCount m.id logs : ℚ) / (matchCount m.id logs : ℚ) * 100),
            takenCount m.id logs, matchCount m.id logs⟩ := by
  unfold calculate_adherence
  rw [alookup_map_value, alookup_foldl_processLog, alookup_init meds m hm hnd]
  simp [adherenceFinal]

theorem takenCount_le_matchCount (mid : Nat) (logs : List DailyLog) :
    takenCount mid logs ≤ matchCount mid logs := by
  refine List.countP_mono_left fun e _ h => ?_
  exact (Bool.and_eq_true _ _).mp h |>.1

/-! ## Concrete fixtures -/

/-- A log-fields record with every field null. -/
def emptyFields : LogFields :=
  ⟨none, none, none, none, none, none, none, none, none⟩

/-- A log of patient 1 on day `d` carrying only `medications_taken`. -/
def medLog (d : Nat) (es : List MedTakenEntry) : DailyLog :=
  ⟨1, 7, d, { emptyFields with medications_taken := some es }⟩

/-- The active medication `M` of patient 1. -/
def medM : Medication := ⟨1, 1, "M", true⟩

/-- Three consecutive daily logs, each with one entry for medication 1,
marked taken on 2 of the 3 days. -/
def exampleLogs : List DailyLog :=
  [medLog 1 [⟨1, true, none⟩], medLog 2 [⟨1, true, none⟩],
   medLog 3 [⟨1, false, none⟩]]

/-- One log holding two `medications_taken` entries for medication 1, both
with `taken = true` — legal input: the log schema does not forbid duplicate
entries for one medication. -/
def dupEntryLogs : List DailyLog :=
  [medLog 1 [⟨1, true, none⟩, ⟨1, true, none⟩]]

/-! ## C1 -/

/-- C1, counterexample: the claim reads days_taken / days_logged as counts
of *logs*.  On a log with two entries for medication 1 (both taken), the
code counts entries: it returns days_taken = 2 and days_logged = 2, while
the count of logs with a matching taken entry is 1 and the count of logs
with any matching entry is 1 — so the claimed value is not the computed
one. -/
theorem C1_counterexample :
    daysTakenByLogs 1 dupEntryLogs = 1 ∧ daysLoggedByLogs 1 dupEntryLogs = 1 ∧
    (alookup 1 (calculate_adherence dupEntryLogs [medM])).map
      AdherenceRec.days_taken = some 2 ∧
    (alookup 1 (calculate_adherence dupEntryLogs [medM])).map
      AdherenceRec.days_logged = some 2 ∧
    alookup 1 (calculate_adherence dupEntryLogs [medM]) ≠
      some ⟨"M", 100, daysTakenByLogs 1 dupEntryLogs,
            daysLoggedByLogs 1 dupEntryLogs⟩ := by
  refine ⟨by decide, by decide, by decide, by decide, fun h => ?_⟩
  have h2 := congrArg (Option.map AdherenceRec.days_taken) h
  exact absurd h2 (by decide)

/-- C1 (amended): for every set of in-range logs and active medications
with distinct ids, the adherence aggregate maps each active medication to
days_taken = the count of `medications_taken` *entries* across the logs
with matching medication_id and `taken = true`, days_logged = the count of
such entries regardless of taken value (entries, not distinct logs), and
percentage = days_taken / days_logged × 100 rounded to 1 decimal (0 when
days_logged = 0); for one active medication M and three logs each with one
entry for M, taken in exactly 2, the result for M is
`{days_taken := 2, days_logged := 3, percentage := 66.7}`. -/
theorem C1_adherence :
    (∀ (logs : List DailyLog) (meds : List Medication) (m : Medication),
        m ∈ meds → (meds.map Medication.id).Nodup →
        alookup m.id (calculate_adherence logs meds) =
          some ⟨m.name,
                if matchCount m.id logs = 0 then 0
                else round1 ((takenCount m.id logs : ℚ) /
                  (matchCount m.id logs : ℚ) * 100),
                takenCount m.id logs, matchCount m.id logs⟩) ∧
    alookup 1 (calculate_adherence exampleLogs [medM]) =
      some ⟨"M", 667/10, 2, 3⟩ := by
  refine ⟨fun logs meds m hm hnd => calculate_adherence_lookup logs meds m hm hnd, ?_⟩
  have h := calculate_adherence_lookup exampleLogs [medM] medM
    (by decide) (by decide)
  have hmc : matchCount medM.id exampleLogs = 3 := by decide
  have htc : takenCount medM.id exampleLogs = 2 := by decide
  rw [show (1 : Nat) = medM.id from rfl, h, hmc, htc]
  have hfl : ⌊((2:ℚ)/3 * 100 * 10)⌋ = 666 := by norm_num [Int.floor_eq_iff]
  rw [round1, roundHalfEven]
  norm_num [hfl]
  rfl

/-- C1, witness: the general component of `C1_adherence` applied to the
three-log example. -/
theorem C1_adherence_witness :
    medM ∈ [medM] ∧ ([medM].map Medication.id).Nodup ∧
    alookup medM.id (calculate_adherence exampleLogs [medM]) =
      some ⟨medM.name,
            if matchCount medM.id exampleLogs = 0 then 0
            else round1 ((takenCount medM.id exampleLogs : ℚ) /
              (matchCount medM.id exampleLogs : ℚ) * 100),
            takenCount medM.id exampleLogs, matchCount medM.id exampleLogs⟩ :=
  ⟨by decide, by decide,
   C1_adherence.1 exampleLogs [medM] medM (by decide) (by decide)⟩

/-! ## C2 -/

/-- C2: for every active medication with zero matching `medications_taken`
entries across the in-range logs, adherence returns percentage = 0,
days_taken = 0, days_logged = 0.  The embedding is a total function: the
division is guarded by the `total = 0` test, so no exception can occur. -/
theorem C2_zero_division (logs : List DailyLog) (meds : List Medication)
    (m : Medication) (hm : m ∈ meds) (hnd : (meds.map Medication.id).Nodup)
    (hzero : matchCount m.id logs = 0) :
    alookup m.id (calculate_adherence logs meds) = some ⟨m.name, 0, 0, 0⟩ := by
  have h := calculate_adherence_lookup logs meds m hm hnd
  have htk : takenCount m.id logs = 0 :=
    Nat.le_zero.mp (hzero ▸ takenCount_le_matchCount m.id logs)
  rw [h, hzero, htk]
  simp

/-- C2, witness: a log mentioning only medication 2 yields the all-zero
bucket for medication 1. -/
theorem C2_zero_division_witness :
    medM ∈ [medM] ∧ ([medM].map Medication.id).Nodup ∧
    matchCount medM.id [medLog 1 [⟨2, true, none⟩]] = 0 ∧
    alookup medM.id (calculate_adherence [medLog 1 [⟨2, true, none⟩]] [medM]) =
      some ⟨medM.name, 0, 0, 0⟩ :=
  ⟨by decide, by decide, by decide,
   C2_zero_division [medLog 1 [⟨2, true, none⟩]] [medM] medM
     (by decide) (by decide) (by decide)⟩

/-! ## C5 -/

theorem keysOf_foldl_processEntry (es : List MedTakenEntry)
    (stats : List (Nat × MedStat)) :
    (es.foldl processEntry stats).map Prod.fst = stats.map Prod.fst := by
  induction es generalizing stats with
  | nil => rfl
  | cons e es ih =>
    rw [List.foldl_cons, ih]
    exact keysOf_bump e.medication_id e.taken stats

theorem keysOf_foldl_processLog (logs : List DailyLog)
    (stats : List (Nat × MedStat)) :
    (logs.foldl processLog stats).map Prod.fst = stats.map Prod.fst := by
  induction logs generalizing stats with
  | nil => rfl
  | cons l logs ih =>
    rw [List.foldl_cons, ih]
    exact keysOf_foldl_processEntry (logEntries l) stats

theorem keysOf_calculate_adherence (logs : List DailyLog)
    (meds : List Medication) :
    (calculate_adherence logs meds).map Prod.fst = meds.map Medication.id := by
  unfold calculate_adherence
  rw [List.map_map]
  rw [show (Prod.fst ∘ fun p : Nat × MedStat => (p.1, adherenceFinal p.2)) =
        Prod.fst from rfl]
  rw [keysOf_foldl_processLog, List.map_map]
  rfl

/-- A log with its dangling `medications_taken` entries (those whose
`medication_id` is outside `ids`) removed. -/
def dropDangling (ids : List Nat) (log : DailyLog) : DailyLog :=
  ⟨log.patient_id, log.logged_by, log.date,
   { log.fields with
     medications_taken := some ((logEntries log).filter (fun e => decide (e.medication_id ∈ ids))) }⟩

theorem foldl_processEntry_filter (ids : List Nat) (es : List MedTakenEntry)
    (stats : List (Nat × MedStat)) (h : stats.map Prod.fst = ids) :
    (es.filter fun e => decide (e.medication_id ∈ ids)).foldl processEntry stats =
      es.foldl processEntry stats := by
  induction es generalizing stats with
  | nil => rfl
  | cons e es ih =>
    by_cases hc : e.medication_id ∈ ids
    · rw [List.filter_cons_of_pos (by simpa using hc), List.foldl_cons,
        List.foldl_cons]
      exact ih (processEntry stats e)
        ((keysOf_bump e.medication_id e.taken stats).trans h)
    · rw [List.filter_cons_of_neg (by simpa using hc), List.foldl_cons]
      rw [show processEntry stats e = stats from
        bump_not_mem e.medication_id e.taken stats (h ▸ hc)]
      exact ih stats h

theorem foldl_processLog_dropDangling (ids : List Nat) (logs : List DailyLog)
    (stats : List (Nat × MedStat)) (h : stats.map Prod.fst = ids) :
    (logs.map (dropDangling ids)).foldl processLog stats =
      logs.foldl processLog stats := by
  induction logs generalizing stats with
  | nil => rfl
  | cons l logs ih =>
    rw [List.map_cons, List.foldl_cons, List.foldl_cons]
    have hentries : logEntries (dropDangling ids l) =
        (logEntries l).filter fun e => decide (e.medication_id ∈ ids) := rfl
    rw [show processLog stats (dropDangling ids l) =
          ((logEntries l).filter fun e =>
            decide (e.medication_id ∈ ids)).foldl processEntry stats from
        congrArg (fun es => es.foldl processEntry stats) hentries]
    rw [foldl_processEntry_filter ids _ stats h]
    exact ih (processLog stats l)
      ((keysOf_foldl_processEntry (logEntries l) stats).trans h)

/-- C5: a `medications_taken` entry whose medication_id is not among the
given medications contributes to no aggregate bucket — removing all such
entries leaves the adherence result unchanged — and the result has a bucket
exactly for the given medication ids.  The embedding is a total function,
so no input raises. -/
theorem C5_dangling_tolerance (logs : List DailyLog) (meds : List Medication) :
    (∀ k, (alookup k (calculate_adherence logs meds)).isSome = true ↔
        k ∈ meds.map Medication.id) ∧
    calculate_adherence (logs.map (dropDangling (meds.map Medication.id))) meds =
      calculate_adherence logs meds := by
  constructor
  · intro k
    rw [alookup_isSome_iff, keysOf_calculate_adherence]
  · unfold calculate_adherence
    rw [foldl_processLog_dropDangling (meds.map Medication.id) logs _
      (by rw [List.map_map]; rfl)]

/-! ## C6 -/

theorem foldl_stats_sleep (logs : List DailyLog) (acc : StatsAcc) :
    (logs.foldl processLogStats acc).sleep_vals =
      acc.sleep_vals ++ logs.filterMap (fun l => l.fields.sleep_hours) := by
  induction logs generalizing acc with
  | nil => simp
  | cons l logs ih =>
    rw [List.foldl_cons, ih]
    cases h : l.fields.sleep_hours <;>
      simp [processLogStats, h, List.filterMap_cons]

theorem foldl_stats_mood (logs : List DailyLog) (acc : StatsAcc) :
    (logs.foldl processLogStats acc).mood_vals =
      acc.mood_vals ++ logs.filterMap (fun l => l.fields.mood_score) := by
  induction logs generalizing acc with
  | nil => simp
  | cons l logs ih =>
    rw [List.foldl_cons, ih]
    cases h : l.fields.mood_score <;>
      simp [processLogStats, h, List.filterMap_cons]

theorem foldl_stats_water (logs : List DailyLog) (acc : StatsAcc) :
    (logs.foldl processLogStats acc).water_vals =
      acc.water_vals ++ logs.filterMap (fun l => l.fields.water_intake_oz) := by
  induction logs generalizing acc with
  | nil => simp
  | cons l logs ih =>
    rw [List.foldl_cons, ih]
    cases h : l.fields.water_intake_oz <;>
      simp [processLogStats, h, List.filterMap_cons]

/-- Modelled from the spec's words (§4.1 scalar averages): the mean over
exactly the non-null values, rounded to 1 decimal, with an explicit
no-data marker when no value is present. -/
def specScalarAverage (vals : List ℚ) : Option ℚ :=
  if vals = [] then none else some (round1 (vals.sum / (vals.length : ℚ)))

/-- C6: each scalar average equals the rounded mean over exactly the logs
whose field is non-null, and is the no-data marker `none` when no log in
the window supplies the field (an empty list is never averaged). -/
theorem C6_scalar_averages (logs : List DailyLog) :
    avg_sleep logs =
      specScalarAverage (logs.filterMap fun l => l.fields.sleep_hours) ∧
    avg_mood logs =
      specScalarAverage (logs.filterMap fun l => l.fields.mood_score) ∧
    avg_water logs =
      specScalarAverage (logs.filterMap fun l => l.fields.water_intake_oz) := by
  refine ⟨?_, ?_, ?_⟩
  · unfold avg_sleep meanRound1 specScalarAverage statsAcc
    rw [foldl_stats_sleep]
    simp [emptyStats, List.isEmpty_iff]
  · unfold avg_mood meanRound1 specScalarAverage statsAcc
    rw [foldl_stats_mood]
    simp [emptyStats, List.isEmpty_iff]
  · unfold avg_water meanRound1 specScalarAverage statsAcc
    rw [foldl_stats_water]
    simp [emptyStats, List.isEmpty_iff]

/-! ## C7 -/

/-- Dict access with default 0, the read model of a `defaultdict(int)`. -/
def acountD (k : String) (m : List (String × Nat)) : Nat :=
  (alookup k m).getD 0

theorem acountD_dinc (k t : String) (m : List (String × Nat)) :
    acountD t (dinc k m) = acountD t m + (if k = t then 1 else 0) := by
  induction m with
  | nil =>
    by_cases h : k = t <;> simp [dinc, acountD, alookup, h]
  | cons p rest ih =>
    obtain ⟨k', n⟩ := p
    by_cases h1 : k' = k
    · subst h1
      by_cases h2 : k' = t <;> simp [dinc, acountD, alookup, h2]
    · by_cases h2 : k' = t
      · subst h2
        have : ¬k = k' := fun hh => h1 hh.symm
        simp [dinc, acountD, alookup, h1, this]
      · have ih' := ih
        simp only [acountD] at ih'
        simp [dinc, acountD, alookup, h1, h2, ih']

theorem acountD_foldl_activities (as : List Activity)
    (m : List (String × Nat)) (t : String) :
    acountD t (as.foldl (fun ac a => dinc a.type ac) m) =
      acountD t m + as.countP (fun a => a.type == t) := by
  induction as generalizing m with
  | nil => simp
  | cons a as ih =>
    rw [List.foldl_cons, ih, acountD_dinc, List.countP_cons]
    by_cases h : a.type = t
    all_goals simp [h]
    all_goals omega

theorem acountD_foldl_processLogStats (logs : List DailyLog) (acc : StatsAcc)
    (t : String) :
    acountD t (logs.foldl processLogStats acc).activity_counts =
      acountD t acc.activity_counts +
        ((logs.map fun l => l.fields.activities.getD []).flatten).countP
          (fun a => a.type == t) := by
  induction logs generalizing acc with
  | nil => simp
  | cons l logs ih =>
    rw [List.foldl_cons, ih]
    have hproj : (processLogStats acc l).activity_counts =
        (l.fields.activities.getD []).foldl (fun ac a => dinc a.type ac)
          acc.activity_counts := rfl
    rw [hproj, acountD_foldl_activities, List.map_cons, List.flatten_cons,
      List.countP_append]
    omega

/-- C7: the activity-frequency aggregate for each activity type equals the
total number of activity entries of that type summed over all logs — every
entry counts, with no per-day deduplication. -/
theorem C7_activity_frequency (logs : List DailyLog) (t : String) :
    acountD t (statsAcc logs).activity_counts =
      ((logs.map fun l => l.fields.activities.getD []).flatten).countP
        (fun a => a.type == t) := by
  have h := acountD_foldl_processLogStats logs emptyStats t
  simpa [statsAcc, acountD, emptyStats, alookup] using h

/-! ## C9 -/

/-- C9: the aggregation pipeline is a pure function of the input log set
and the active-medication set, so two runs over the same inputs produce
identical aggregates; the wall clock enters only through the caller-computed
range boundary, so two boundaries selecting the same log window yield
identical aggregates.  The embedding has no other source of variation: no
randomness and no clock appears in `computeAggregates`. -/
theorem C9_determinism :
    (∀ (logs : List DailyLog) (meds : List Medication),
        computeAggregates logs meds = computeAggregates logs meds) ∧
    (∀ (t₁ t₂ pid : Nat) (dblogs : List DailyLog) (meds : List Medication),
        windowLogs t₁ pid dblogs = windowLogs t₂ pid dblogs →
        computeAggregates (windowLogs t₁ pid dblogs) meds =
          computeAggregates (windowLogs t₂ pid dblogs) meds) :=
  ⟨fun _ _ => rfl, fun _ _ _ _ _ h => by rw [h]⟩

/-- C9, witness: two different clock values whose 30-day windows coincide
give identical aggregates. -/
theorem C9_determinism_witness :
    windowLogs 100 1 [] = windowLogs 200 1 [] ∧
    computeAggregates (windowLogs 100 1 []) [] =
      computeAggregates (windowLogs 200 1 []) [] :=
  ⟨rfl, C9_determinism.2 100 200 1 [] [] rfl⟩

/-! ## C8 -/

theorem logKeyCount_upsert_self (store : List DailyLog) (pid d lb : Nat)
    (f : LogFields) :
    logKeyCount pid d (create_or_update_log store pid d lb f) =
      max 1 (logKeyCount pid d store) := by
  induction store with
  | nil => simp [create_or_update_log, logKeyCount]
  | cons r rest ih =>
    by_cases h : r.patient_id = pid ∧ r.date = d
    · rw [show create_or_update_log (r :: rest) pid d lb f =
          { r with fields := f } :: rest from by
        simp [create_or_update_log, h]]
      simp [logKeyCount, List.countP_cons, h.1, h.2]
    · rw [show create_or_update_log (r :: rest) pid d lb f =
          r :: create_or_update_log rest pid d lb f from by
        simp [create_or_update_log, h]]
      have hpred : (r.patient_id == pid && r.date == d) = false := by
        rcases Decidable.not_and_iff_or_not.mp h with h1 | h1 <;> simp [h1]
      simp [logKeyCount, List.countP_cons, hpred] at ih ⊢
      omega

theorem logKeyCount_upsert_other (store : List DailyLog) (pid d lb : Nat)
    (f : LogFields) (pid' d' : Nat) (h : ¬(pid' = pid ∧ d' = d)) :
    logKeyCount pid' d' (create_or_update_log store pid d lb f) =
      logKeyCount pid' d' store := by
  induction store with
  | nil =>
    have hpred : (pid == pid' && d == d') = false := by
      rcases Decidable.not_and_iff_or_not.mp h with h1 | h1
      · have hne : pid ≠ pid' := fun hh => h1 hh.symm
        simp [hne]
      · have hne : d ≠ d' := fun hh => h1 hh.symm
        simp [hne]
    simp [create_or_update_log, logKeyCount, List.countP_cons, hpred]
  | cons r rest ih =>
    by_cases hm : r.patient_id = pid ∧ r.date = d
    · rw [show create_or_update_log (r :: rest) pid d lb f =
          { r with fields := f } :: rest from by
        simp [create_or_update_log, hm]]
      simp [logKeyCount, List.countP_cons]
    · rw [show create_or_update_log (r :: rest) pid d lb f =
          r :: create_or_update_log rest pid d lb f from by
        simp [create_or_update_log, hm]]
      simp [logKeyCount, List.countP_cons] at ih ⊢
      omega

theorem findLogRow_upsert (store : List DailyLog) (pid d lb : Nat)
    (f : LogFields) :
    (findLogRow pid d (create_or_update_log store pid d lb f)).map
      DailyLog.fields = some f := by
  induction store with
  | nil => simp [create_or_update_log, findLogRow, List.find?]
  | cons r rest ih =>
    by_cases h : r.patient_id = pid ∧ r.date = d
    · rw [show create_or_update_log (r :: rest) pid d lb f =
          { r with fields := f } :: rest from by
        simp [create_or_update_log, h]]
      simp [findLogRow, List.find?, h.1, h.2]
    · rw [show create_or_update_log (r :: rest) pid d lb f =
          r :: create_or_update_log rest pid d lb f from by
        simp [create_or_update_log, h]]
      have hpred : (r.patient_id == pid && r.date == d) = false := by
        rcases Decidable.not_and_iff_or_not.mp h with h1 | h1 <;> simp [h1]
      simpa [findLogRow, List.find?, hpred] using ih

theorem length_upsert_found (store : List DailyLog) (pid d lb : Nat)
    (f : LogFields) (r₀ : DailyLog) (h : findLogRow pid d store = some r₀) :
    (create_or_update_log store pid d lb f).length = store.length := by
  induction store with
  | nil => simp [findLogRow, List.find?] at h
  | cons r rest ih =>
    by_cases hm : r.patient_id = pid ∧ r.date = d
    · rw [show create_or_update_log (r :: rest) pid d lb f =
          { r with fields := f } :: rest from by
        simp [create_or_update_log, hm]]
      simp
    · rw [show create_or_update_log (r :: rest) pid d lb f =
          r :: create_or_update_log rest pid d lb f from by
        simp [create_or_update_log, hm]]
      have hpred : (r.patient_id == pid && r.date == d) = false := by
        rcases Decidable.not_and_iff_or_not.mp hm with h1 | h1 <;> simp [h1]
      rw [findLogRow, List.find?] at h
      rw [hpred] at h
      simpa using ih h

theorem length_upsert_missing (store : List DailyLog) (pid d lb : Nat)
    (f : LogFields) (h : findLogRow pid d store = none) :
    (create_or_update_log store pid d lb f).length = store.length + 1 := by
  induction store with
  | nil => simp [create_or_update_log]
  | cons r rest ih =>
    rw [findLogRow, List.find?] at h
    by_cases hm : r.patient_id = pid ∧ r.date = d
    · rw [show (r.patient_id == pid && r.date == d) = true by
        simp [hm.1, hm.2]] at h
      cases h
    · have hpred : (r.patient_id == pid && r.date == d) = false := by
        rcases Decidable.not_and_iff_or_not.mp hm with h1 | h1 <;> simp [h1]
      rw [hpred] at h
      rw [show create_or_update_log (r :: rest) pid d lb f =
          r :: create_or_update_log rest pid d lb f from by
        simp [create_or_update_log, hm]]
      simpa using ih h

/-- C8: the log write preserves the at-most-one-log-per-(patient, date)
invariant; the stored row for the submitted key carries exactly the new
submission's field values; after the write exactly one row exists for the
key; a fresh date inserts exactly one row, an existing date updates in
place and adds none; other keys are untouched. -/
theorem C8_upsert_invariant (store : List DailyLog) (pid d lb : Nat)
    (f : LogFields) (hinv : UpsertInv store) :
    UpsertInv (create_or_update_log store pid d lb f) ∧
    (findLogRow pid d (create_or_update_log store pid d lb f)).map
      DailyLog.fields = some f ∧
    logKeyCount pid d (create_or_update_log store pid d lb f) = 1 ∧
    (findLogRow pid d store = none →
      (create_or_update_log store pid d lb f).length = store.length + 1) ∧
    (∀ r₀, findLogRow pid d store = some r₀ →
      (create_or_update_log store pid d lb f).length = store.length) ∧
    (∀ pid' d', ¬(pid' = pid ∧ d' = d) →
      logKeyCount pid' d' (create_or_update_log store pid d lb f) =
        logKeyCount pid' d' store) := by
  refine ⟨?_, findLogRow_upsert store pid d lb f, ?_,
    length_upsert_missing store pid d lb f,
    fun r₀ h => length_upsert_found store pid d lb f r₀ h,
    fun pid' d' h => logKeyCount_upsert_other store pid d lb f pid' d' h⟩
  · intro pid' d'
    by_cases h : pid' = pid ∧ d' = d
    · rw [h.1, h.2, logKeyCount_upsert_self]
      have := hinv pid d
      omega
    · rw [logKeyCount_upsert_other store pid d lb f pid' d' h]
      exact hinv pid' d'
  · rw [logKeyCount_upsert_self]
    have := hinv pid d
    omega

/-- C8, witness: updating the one stored log of patient 1 on day 5 leaves
exactly one row carrying the new fields. -/
theorem C8_upsert_witness :
    UpsertInv [⟨1, 7, 5, emptyFields⟩] ∧
    (findLogRow 1 5 (create_or_update_log [⟨1, 7, 5, emptyFields⟩] 1 5 9
        { emptyFields with notes := some "updated" })).map DailyLog.fields =
      some { emptyFields with notes := some "updated" } ∧
    logKeyCount 1 5 (create_or_update_log [⟨1, 7, 5, emptyFields⟩] 1 5 9
      { emptyFields with notes := some "updated" }) = 1 ∧
    (create_or_update_log [⟨1, 7, 5, emptyFields⟩] 1 5 9
      { emptyFields with notes := some "updated" }).length =
      [(⟨1, 7, 5, emptyFields⟩ : DailyLog)].length := by
  have hinv : UpsertInv [⟨1, 7, 5, emptyFields⟩] := by
    intro pid d
    exact le_trans (List.countP_le_length _) (by simp)
  have h := C8_upsert_invariant [⟨1, 7, 5, emptyFields⟩] 1 5 9
    { emptyFields with notes := some "updated" } hinv
  exact ⟨hinv, h.2.1, h.2.2.1, h.2.2.2.2.1 ⟨1, 7, 5, emptyFields⟩ (by decide)⟩

/-! ## C4: string lemmas -/

theorem dropWhile_isWS_append (ws xs : List Char)
    (h : ∀ c ∈ ws, isWS c = true) :
    (ws ++ xs).dropWhile isWS = xs.dropWhile isWS := by
  induction ws with
  | nil => rfl
  | cons c ws ih =>
    rw [List.cons_append, List.dropWhile_cons,
      if_pos (h c (List.mem_cons_self c ws))]
    exact ih fun c' hc' => h c' (List.mem_cons_of_mem c hc')

theorem dropWhile_isWS_cons_false (c : Char) (cs : List Char)
    (h : isWS c = false) : (c :: cs).dropWhile isWS = c :: cs := by
  rw [List.dropWhile_cons]
  simp [h]

theorem dropTrail_append_ws (xs ws : List Char)
    (h : ∀ c ∈ ws, isWS c = true) : dropTrail (xs ++ ws) = dropTrail xs := by
  unfold dropTrail
  rw [List.reverse_append,
    dropWhile_isWS_append ws.reverse xs.reverse
      fun c hc => h c (List.mem_reverse.mp hc)]

theorem dropTrail_concat (xs : List Char) (c : Char) (h : isWS c = false) :
    dropTrail (xs ++ [c]) = xs ++ [c] := by
  unfold dropTrail
  rw [List.reverse_append]
  simp only [List.reverse_cons, List.reverse_nil, List.nil_append,
    List.singleton_append]
  rw [dropWhile_isWS_cons_false c xs.reverse h]
  simp

/-- `pyStrip` of a text made of leading whitespace, a core starting and
ending in non-whitespace, and trailing whitespace is the core. -/
theorem pyStrip_sandwich (ws1 ws2 mid : List Char) (c0 c1 : Char)
    (h1 : ∀ c ∈ ws1, isWS c = true) (h2 : ∀ c ∈ ws2, isWS c = true)
    (hc0 : isWS c0 = false) (hc1 : isWS c1 = false) :
    pyStrip (ws1 ++ (c0 :: (mid ++ [c1])) ++ ws2) = c0 :: (mid ++ [c1]) := by
  unfold pyStrip
  rw [List.append_assoc, dropWhile_isWS_append _ _ h1,
    show (c0 :: (mid ++ [c1])) ++ ws2 = c0 :: ((mid ++ [c1]) ++ ws2) from rfl,
    dropWhile_isWS_cons_false _ _ hc0,
    show c0 :: ((mid ++ [c1]) ++ ws2) = (c0 :: (mid ++ [c1])) ++ ws2 from rfl,
    dropTrail_append_ws _ _ h2,
    show c0 :: (mid ++ [c1]) = (c0 :: mid) ++ [c1] from rfl,
    dropTrail_concat _ _ hc1]

theorem dropWhile_not_nl_append (xs ys : List Char) (h : nlChar ∉ xs) :
    (xs ++ ys).dropWhile (fun c => !(c = nlChar)) =
      ys.dropWhile (fun c => !(c = nlChar)) := by
  induction xs with
  | nil => rfl
  | cons c cs ih =>
    simp only [List.mem_cons] at h
    push_neg at h
    have hcn : ¬c = nlChar := fun hh => h.1 hh.symm
    rw [List.cons_append, List.dropWhile_cons, if_pos (by simp [hcn])]
    exact ih h.2

theorem dropFirstLine_eq (xs ys : List Char) (h : nlChar ∉ xs) :
    dropFirstLine (xs ++ ([nlChar] ++ ys)) = ys := by
  unfold dropFirstLine
  rw [dropWhile_not_nl_append xs ([nlChar] ++ ys) h]
  simp [List.dropWhile_cons]

theorem dropWhile_isWS_append_of_ne_nil (J ws : List Char)
    (hne : J.dropWhile isWS ≠ []) :
    (J ++ ws).dropWhile isWS = J.dropWhile isWS ++ ws := by
  induction J with
  | nil => simp [List.dropWhile] at hne
  | cons c cs ih =>
    by_cases hc : isWS c = true
    · have hne' : cs.dropWhile isWS ≠ [] := by
        rwa [List.dropWhile_cons, if_pos hc] at hne
      rw [List.cons_append, List.dropWhile_cons, if_pos hc,
        List.dropWhile_cons, if_pos hc, ih hne']
    · rw [List.cons_append, List.dropWhile_cons, if_neg hc,
        List.dropWhile_cons, if_neg hc, List.cons_append]

theorem pyStrip_concat_nl (J : List Char) (hne : J.dropWhile isWS ≠ []) :
    pyStrip (J ++ [nlChar]) = pyStrip J := by
  unfold pyStrip
  rw [dropWhile_isWS_append_of_ne_nil J [nlChar] hne,
    dropTrail_append_ws _ [nlChar] (by intro c hc; simp at hc; subst hc; rfl)]

theorem normalizeResponse_fenced (tag ws1 ws2 J : List Char)
    (hws1 : ∀ c ∈ ws1, isWS c = true) (hws2 : ∀ c ∈ ws2, isWS c = true)
    (htag : nlChar ∉ tag) (hne : J.dropWhile isWS ≠ []) :
    normalizeResponse (wrapFence tag ws1 ws2 J) = pyStrip J := by
  have hA : pyStrip (wrapFence tag ws1 ws2 J) =
      fenceTicks ++ tag ++ ([nlChar] ++ (J ++ [nlChar] ++ fenceTicks)) := by
    rw [show wrapFence tag ws1 ws2 J =
        ws1 ++ (tickChar ::
          ((([tickChar, tickChar] ++ tag ++ [nlChar] ++ J ++ [nlChar] ++
            [tickChar, tickChar]) ++ [tickChar]))) ++ ws2 from by
      simp [wrapFence, fenceTicks]]
    rw [pyStrip_sandwich ws1 ws2 _ tickChar tickChar hws1 hws2
      (by decide) (by decide)]
    simp [fenceTicks]
  have hstart : startsWithFence
      (fenceTicks ++ tag ++ ([nlChar] ++ (J ++ [nlChar] ++ fenceTicks))) =
        true := by
    simp [startsWithFence, fenceTicks, List.take]
  have hdrop : dropFirstLine
      (fenceTicks ++ tag ++ ([nlChar] ++ (J ++ [nlChar] ++ fenceTicks))) =
        J ++ [nlChar] ++ fenceTicks := by
    rw [show fenceTicks ++ tag ++ ([nlChar] ++ (J ++ [nlChar] ++ fenceTicks)) =
        (fenceTicks ++ tag) ++ ([nlChar] ++ (J ++ [nlChar] ++ fenceTicks)) from by
      simp]
    exact dropFirstLine_eq (fenceTicks ++ tag) (J ++ [nlChar] ++ fenceTicks)
      (by simp [fenceTicks, htag]; decide)
  have hend : endsWithFence (J ++ [nlChar] ++ fenceTicks) = true := by
    simp [endsWithFence, fenceTicks, List.take]
  have htake : (J ++ [nlChar] ++ fenceTicks).take
      ((J ++ [nlChar] ++ fenceTicks).length - 3) = J ++ [nlChar] := by
    have hlen : (J ++ [nlChar] ++ fenceTicks).length - 3 =
        (J ++ [nlChar]).length := by simp [fenceTicks]
    rw [hlen, List.take_left]
  unfold normalizeResponse
  rw [hA]
  unfold stripFences
  rw [hstart, if_pos rfl, hdrop]
  show (if endsWithFence (J ++ [nlChar] ++ fenceTicks) = true then
      pyStrip (List.take ((J ++ [nlChar] ++ fenceTicks).length - 3)
        (J ++ [nlChar] ++ fenceTicks))
    else J ++ [nlChar] ++ fenceTicks) = pyStrip J
  rw [hend, if_pos rfl, htake, pyStrip_concat_nl J hne]

theorem normalizeResponse_unfenced (J rest : List Char)
    (hJ : pyStrip J = lbraceChar :: rest) :
    normalizeResponse J = pyStrip J := by
  unfold normalizeResponse stripFences
  rw [hJ]
  have hne : (lbraceChar :: rest).take 3 ≠ fenceTicks := by
    intro h
    rw [show (lbraceChar :: rest).take 3 = lbraceChar :: rest.take 2 from rfl,
      show fenceTicks = tickChar :: [tickChar, tickChar] from rfl] at h
    exact absurd (List.cons.injEq .. ▸ congrArg id h).1 (by decide)
  rw [show startsWithFence (lbraceChar :: rest) = false from
    decide_eq_false hne]
  simp

/-- C4: a model response equal to a JSON object text `J` wrapped in
triple-backquote fences — optional language tag on the opening fence,
optional surrounding whitespace — normalizes to the same text as the
unfenced `J`, so any parser yields the same parsed value on both.  The
hypotheses say the surrounding runs are whitespace, the tag contains no
newline, and `J` trimmed is a JSON object text (opens with a brace). -/
theorem C4_fence_round_trip (parse : List Char → Option Json)
    (tag ws1 ws2 J rest : List Char)
    (hws1 : ∀ c ∈ ws1, isWS c = true) (hws2 : ∀ c ∈ ws2, isWS c = true)
    (htag : nlChar ∉ tag) (hJ : pyStrip J = lbraceChar :: rest) :
    parse (normalizeResponse (wrapFence tag ws1 ws2 J)) =
      parse (normalizeResponse J) := by
  have hne : J.dropWhile isWS ≠ [] := by
    intro hnil
    rw [pyStrip, hnil] at hJ
    exact absurd hJ (by simp [dropTrail])
  rw [normalizeResponse_fenced tag ws1 ws2 J hws1 hws2 htag hne,
    normalizeResponse_unfenced J rest hJ]

/-- C4, witness: the round trip applied to the concrete response
consisting of a two-character object text fenced with a `json` tag. -/
theorem C4_fence_round_trip_witness :
    (∀ c ∈ ([] : List Char), isWS c = true) ∧
    (∀ c ∈ [nlChar], isWS c = true) ∧
    nlChar ∉ ("json".data) ∧
    pyStrip [lbraceChar, rbraceChar] = lbraceChar :: [rbraceChar] ∧
    (fun _ => some (Json.obj [])) (normalizeResponse
        (wrapFence ("json".data) [] [nlChar] [lbraceChar, rbraceChar])) =
      (fun _ => some (Json.obj []))
        (normalizeResponse [lbraceChar, rbraceChar]) := by
  refine ⟨by simp, ?_, by decide, by decide, ?_⟩
  · intro c hc
    simp at hc
    subst hc
    rfl
  · exact C4_fence_round_trip (fun _ => some (Json.obj [])) ("json".data)
      [] [nlChar] [lbraceChar, rbraceChar] [rbraceChar]
      (by simp) (by intro c hc; simp at hc; subst hc; rfl)
      (by decide) (by decide)

/-! ## C3 and C10: the endpoint -/

/-- C3 (amended): branch behavior of the summary endpoint.  404 when no
stored patient with the requested id belongs to the caller; 404 when no log
of the patient falls in the trailing 30 days; 500 — without the external
call being attempted: the outcome is the same for every model response —
when the credential is unconfigured; 500 when the normalized response is
not parseable; and a 200 with the merged object when the parsed response
is a JSON object.  (When the response parses to a non-object the endpoint
raises an unhandled type error instead of returning 200 — see the
counterexample and C10.)  Each branch runs at most once: the embedding
consumes a single model response and never retries. -/
theorem C3_endpoint_contract (parse : List Char → Option Json)
    (env : SummaryEnv) (pid : Nat) :
    ((∀ p ∈ env.db_patients, ¬(p.id = pid ∧ p.caregiver_id = env.current_user)) →
      generate_summary parse env pid = .error (.http 404 "Patient not found")) ∧
    (∀ p₀, findPatient env pid = some p₀ →
      ((∀ l ∈ env.db_logs, ¬(l.patient_id = pid ∧ env.today - 30 ≤ l.date)) →
        generate_summary parse env pid =
          .error (.http 404 "No logs found for the last 30 days")) ∧
      (windowLogs env.today pid env.db_logs ≠ [] →
        (env.api_key = none →
          ∀ r : List Char,
            generate_summary parse { env with modelResponse := r } pid =
              .error (.http 500 "ANTHROPIC_API_KEY not configured")) ∧
        (∀ k, env.api_key = some k →
          (parse (normalizeResponse env.modelResponse) = none →
            generate_summary parse env pid =
              .error (.http 500 "Failed to parse AI response as JSON")) ∧
          (∀ ms, parse (normalizeResponse env.modelResponse) = some (.obj ms) →
            generate_summary parse env pid =
              .ok (.obj (setKey ms "adherence_data" (adherenceToJson
                (computeAggregates (windowLogs env.today pid env.db_logs)
                  (activeMeds env pid)).adherence))))))) := by
  refine ⟨?_, ?_⟩
  · intro h
    have hfind : findPatient env pid = none := by
      apply List.find?_eq_none.mpr
      intro p hp
      intro hb
      exact h p hp (by simpa using hb)
    simp [generate_summary, hfind]
  · intro p₀ hfind
    refine ⟨?_, ?_⟩
    · intro h
      have hwin : windowLogs env.today pid env.db_logs = [] := by
        unfold windowLogs
        rw [show env.db_logs.filter
            (fun l => l.patient_id == pid && decide (env.today - 30 ≤ l.date)) =
              ([] : List DailyLog) from List.filter_eq_nil_iff.mpr ?_]
        · rfl
        · intro l hl hb
          exact h l hl (by simpa using hb)
      simp [generate_summary, hfind, hwin]
    · intro hne
      have hwinne : (windowLogs env.today pid env.db_logs).isEmpty = false := by
        cases hw : windowLogs env.today pid env.db_logs with
        | nil => exact absurd hw hne
        | cons a l => rfl
      refine ⟨?_, ?_⟩
      · intro hkey r
        have hfind' : findPatient { env with modelResponse := r } pid =
            some p₀ := hfind
        have hwinne' : (windowLogs ({ env with modelResponse := r }).today pid
            ({ env with modelResponse := r }).db_logs).isEmpty = false := hwinne
        simp only [generate_summary, hfind']
        simp [hwinne', hkey]
      · intro k hkey
        exact ⟨fun hp => by simp [generate_summary, hfind, hwinne, hkey, hp],
          fun ms hp => by simp [generate_summary, hfind, hwinne, hkey, hp]⟩

/-- A parser recognizing exactly the two-character object text, as
`json.loads` does on it. -/
def objParse : List Char → Option Json :=
  fun cs => if cs = [lbraceChar, rbraceChar] then some (.obj []) else none

/-- A parser whose result is a JSON array, as `json.loads` yields on a
response like a bracketed list. -/
def arrParse : List Char → Option Json := fun _ => some (.arr [])

/-- A request state in which every precondition of the success branch
holds: the patient is owned, a log lies in the window, the credential is
configured. -/
def okEnv : SummaryEnv :=
  { db_patients := [⟨1, 7, "Pat", "Dx"⟩]
    db_logs := [⟨1, 7, 95, emptyFields⟩]
    db_meds := [medM]
    current_user := 7
    today := 100
    api_key := some "k"
    modelResponse := [lbraceChar, rbraceChar] }

/-- The request state of the C3 counterexample: identical to `okEnv`
except that the model replies with the array text, on which `json.loads`
returns a list. -/
def cxEnv : SummaryEnv :=
  { okEnv with modelResponse := "[1, 2]".data }

/-- The behavior of `json.loads` at the counterexample's response text:
the six-character array text parses to the two-element JSON array; any
other text is not claimed to parse. -/
def listParse : List Char → Option Json :=
  fun cs =>
    if cs = "[1, 2]".data then some (.arr [.num 1, .num 2]) else none

/-- C3, counterexample: in a state where the patient is owned, a log lies
in the window, the credential is configured and the model response is the
text of a JSON array — which parses, to a list, exactly as `json.loads`
parses it — the endpoint neither returns 200 with a merged object nor any
of the four claimed errors: it raises an unhandled type error at the
`adherence_data` item assignment. -/
theorem C3_endpoint_counterexample :
    cxEnv.modelResponse = "[1, 2]".data ∧
    findPatient cxEnv 1 = some ⟨1, 7, "Pat", "Dx"⟩ ∧
    windowLogs cxEnv.today 1 cxEnv.db_logs ≠ [] ∧
    cxEnv.api_key = some "k" ∧
    listParse (normalizeResponse cxEnv.modelResponse) =
      some (.arr [.num 1, .num 2]) ∧
    generate_summary listParse cxEnv 1 = .error .typeErr := by
  exact ⟨rfl, rfl, by decide, rfl, rfl, rfl⟩

/-- C3, witness: the 200 branch of `C3_endpoint_contract` at a concrete
state whose response is the two-character object text. -/
theorem C3_endpoint_contract_witness :
    findPatient okEnv 1 = some ⟨1, 7, "Pat", "Dx"⟩ ∧
    windowLogs okEnv.today 1 okEnv.db_logs ≠ [] ∧
    okEnv.api_key = some "k" ∧
    objParse (normalizeResponse okEnv.modelResponse) = some (.obj []) ∧
    generate_summary objParse okEnv 1 =
      .ok (.obj (setKey [] "adherence_data" (adherenceToJson
        (computeAggregates (windowLogs okEnv.today 1 okEnv.db_logs)
          (activeMeds okEnv 1)).adherence))) :=
  ⟨rfl, by decide, rfl, rfl,
   ((((C3_endpoint_contract objParse okEnv 1).2 ⟨1, 7, "Pat", "Dx"⟩
     rfl).2 (by decide)).2 "k" rfl).2 [] rfl⟩

/-- C10: once the patient, log and credential checks pass, the dedicated
parse-failure error is raised exactly when the normalized response is not
parseable, and a response parsing to a JSON array makes the endpoint fail
with the unhandled type error (the `adherence_data` item assignment on a
non-dict), not with the parse-failure condition. -/
theorem C10_parse_failure_boundary (parse : List Char → Option Json)
    (env : SummaryEnv) (pid : Nat) (p₀ : Patient) (k : String)
    (hfind : findPatient env pid = some p₀)
    (hlogs : windowLogs env.today pid env.db_logs ≠ [])
    (hkey : env.api_key = some k) :
    (generate_summary parse env pid =
        .error (.http 500 "Failed to parse AI response as JSON") ↔
      parse (normalizeResponse env.modelResponse) = none) ∧
    (∀ xs, parse (normalizeResponse env.modelResponse) = some (.arr xs) →
      generate_summary parse env pid = .error .typeErr) := by
  have hwinne : (windowLogs env.today pid env.db_logs).isEmpty = false := by
    cases hw : windowLogs env.today pid env.db_logs with
    | nil => exact absurd hw hlogs
    | cons a l => rfl
  constructor
  · cases hp : parse (normalizeResponse env.modelResponse) with
    | none => simp [generate_summary, hfind, hwinne, hkey, hp]
    | some v =>
      cases v <;> simp [generate_summary, hfind, hwinne, hkey, hp]
  · intro xs hp
    simp [generate_summary, hfind, hwinne, hkey, hp]

/-- A second concrete request state, for exercising C10. -/
def okEnv2 : SummaryEnv :=
  { db_patients := [⟨3, 9, "Pat2", "Dx2"⟩]
    db_logs := [⟨3, 9, 60, emptyFields⟩]
    db_meds := []
    current_user := 9
    today := 61
    api_key := some "key2"
    modelResponse := "[1, 2]".data }

/-- C10, witness: `C10_parse_failure_boundary` applied to a state whose
response parses to an array. -/
theorem C10_parse_failure_boundary_witness :
    findPatient okEnv2 3 = some ⟨3, 9, "Pat2", "Dx2"⟩ ∧
    windowLogs okEnv2.today 3 okEnv2.db_logs ≠ [] ∧
    okEnv2.api_key = some "key2" ∧
    arrParse (normalizeResponse okEnv2.modelResponse) = some (.arr []) ∧
    generate_summary arrParse okEnv2 3 = .error .typeErr :=
  ⟨rfl, by decide, rfl, rfl,
   (C10_parse_failure_boundary arrParse okEnv2 3 ⟨3, 9, "Pat2", "Dx2"⟩ "key2"
     rfl (by decide) rfl).2 [] rfl⟩

end TrueFit
